import Mathlib

/-!
Verification development for the openclaw-wechat bridge.

Shallow embedding of the core logic of the repository:
backoff policy (utils.mjs), the gateway pending-request machine
(bridge/gateway.mjs), session guards, reconnect scheduling
(gateway.mjs and wechat.mjs), the orchestrator authorization flow
(bridge.mjs), reply path extraction (bridge.mjs) and the chunked
media download loops (wechat.mjs).
-/

namespace OpenClawWechat

/-- Whitespace characters of the JS regex class backslash-s and of the
JS trim methods (ASCII part; the inputs considered contain no exotic
unicode spaces). -/
def jsWhitespace (c : Char) : Bool :=
  c = ' ' || c = '\t' || c = '\n' || c = '\r' ||
  c = Char.ofNat 11 || c = Char.ofNat 12

/-- JS String.prototype.trim on a character list: drop leading and
trailing whitespace. -/
def jsTrimList (cs : List Char) : List Char :=
  ((cs.dropWhile jsWhitespace).reverse.dropWhile jsWhitespace).reverse

/-- JS String.prototype.trim. -/
def jsTrim (s : String) : String :=
  String.mk (jsTrimList s.toList)

/-- JS String.prototype.toUpperCase (ASCII mapping). -/
def jsToUpper (s : String) : String :=
  String.mk (s.toList.map Char.toUpper)

/-- Embeds utils.mjs backoffDelay: the wait time is
min(baseDelay * 2 ^ attempt, maxDelay). The actual sleeping is a
side effect and the function returns the wait time, embedded here
as the returned value. -/
def backoffDelay (attempt baseDelay maxDelay : Nat) : Nat :=
  min (baseDelay * 2 ^ attempt) maxDelay

/-- Modelled from the spec words of the Backoff Policy contract:
computeDelay(attempt, base, max) returns min(base * 2 ^ attempt, max).
Used to compare the spec contract with the source function. -/
def computeDelaySpec (n base maxDelay : Nat) : Nat :=
  min (base * 2 ^ n) maxDelay

/-! ## Gateway pending-request machine (bridge/gateway.mjs)

One registered pending request of GatewayConnection is tracked:
its presence in the pendingRequests map, whether its timeout timer
is still armed, the accumulated stream text buffer, and the list of
settle invocations (resolve or reject) performed so far. The events
a request can see are translated from handleMessage (lines 213-251),
the callAgent eventHandler (lines 320-353), the callAgent/request
timeout callbacks, and disconnect (lines 448-469). -/

/-- Which kind of pending request: a callAgent request (id starts with
"agent-", has an eventHandler) or a plain request (uuid id, no
eventHandler). -/
inductive RKind where
  | agent
  | plain
deriving DecidableEq, Repr

/-- True for the agent kind; mirrors the id.startsWith check in
handleMessage, since ids of callAgent requests and only those start
with the "agent-" marker. -/
def RKind.isAgent : RKind → Bool
  | .agent => true
  | .plain => false

/-- One settle invocation of a pending request continuation. -/
inductive SettleOutcome where
  | resolvedPayload
  | resolvedText (s : String)
  | rejectedError (msg : String)
  | rejectedTimeout
  | rejectedClosed
deriving DecidableEq, Repr

/-- State of one registered pending request. -/
structure PendingState where
  present : Bool
  timerArmed : Bool
  buffer : String
  settled : List SettleOutcome
deriving DecidableEq, Repr

/-- State right after registration: entry in the table, timer armed,
empty stream buffer, no settle yet. -/
def initPending : PendingState :=
  { present := true, timerArmed := true, buffer := "", settled := [] }

/-- Events that can reach one pending request. resFrame is a res frame
whose id equals the request id (ok flag, and whether payload.status is
the string accepted); assistantEvent and lifecycleEvent are agent event
frames whose runId equals the request id; timeoutFire is the firing of
the armed timeout; disconnectCall is an explicit disconnect(). -/
inductive GwEvent where
  | resFrame (ok : Bool) (statusAccepted : Bool)
  | assistantEvent (text : Option String) (delta : Option String)
  | lifecycleEvent (phase : String) (msg : Option String)
  | timeoutFire
  | disconnectCall
deriving DecidableEq, Repr

/-- One step of the pending-request machine, translated from
gateway.mjs. resFrame: handleMessage lines 225-242 (agent ids with
status accepted are left untouched; otherwise the entry is deleted and
resolve or reject runs, both clearing the timer). assistantEvent and
lifecycleEvent: the eventHandler installed by callAgent lines 320-348,
reachable only while the entry is present and only for agent requests
(plain requests have no eventHandler). timeoutFire: the setTimeout
callbacks of callAgent line 304 and request line 379, which delete the
entry and reject. disconnectCall: disconnect lines 448-455, rejecting
the entry if still present and clearing the table. -/
def pendingStep (kind : RKind) (st : PendingState) : GwEvent → PendingState
  | .resFrame ok statusAccepted =>
    if st.present then
      if kind.isAgent && statusAccepted then st
      else
        { st with present := false, timerArmed := false,
                  settled := st.settled ++
                    [if ok then .resolvedPayload else .rejectedError "请求失败"] }
    else st
  | .assistantEvent text delta =>
    if st.present && kind.isAgent then
      match text with
      | some s => { st with buffer := s }
      | none =>
        match delta with
        | some s => { st with buffer := st.buffer ++ s }
        | none => st
    else st
  | .lifecycleEvent phase msg =>
    if st.present && kind.isAgent then
      if phase = "end" then
        { st with present := false, timerArmed := false,
                  settled := st.settled ++ [.resolvedText (jsTrim st.buffer)] }
      else if phase = "error" then
        { st with present := false, timerArmed := false,
                  settled := st.settled ++ [.rejectedError (msg.getD "Agent 错误")] }
      else st
    else st
  | .timeoutFire =>
    { st with present := false, timerArmed := false,
              settled := st.settled ++ [.rejectedTimeout] }
  | .disconnectCall =>
    if st.present then
      { st with present := false, timerArmed := false,
                settled := st.settled ++ [.rejectedClosed] }
    else st

/-- Run the pending-request machine over a list of events. -/
def runPending (kind : RKind) (st : PendingState) (evs : List GwEvent) : PendingState :=
  evs.foldl (pendingStep kind) st

/-- Well-formed event sequences: a timer can only fire while it is
armed (a cleared setTimeout never runs its callback, and a timer fires
at most once). This is the only scheduling fact the embedding takes
from the runtime; all other events may occur at any time. -/
def wfEvents (kind : RKind) (st : PendingState) : List GwEvent → Bool
  | [] => true
  | e :: rest =>
    (e ≠ GwEvent.timeoutFire || st.timerArmed) &&
      wfEvents kind (pendingStep kind st e) rest

/-- Events that are terminal for a request of the given kind: any
matching res frame except an accepted acknowledgement of an agent
request, a lifecycle end or error event of an agent request, the
timeout, and disconnect. -/
def isTerminalEvent (kind : RKind) : GwEvent → Bool
  | .resFrame _ statusAccepted => !(kind.isAgent && statusAccepted)
  | .assistantEvent _ _ => false
  | .lifecycleEvent phase _ => kind.isAgent && (phase == "end" || phase == "error")
  | .timeoutFire => true
  | .disconnectCall => true

/-- Recognizes assistant stream events. -/
def isAssistantEvent : GwEvent → Bool
  | .assistantEvent _ _ => true
  | _ => false

/-! ## Entry guards of callAgent and request (gateway.mjs lines 289-295
and 371-383)

The observable effect of starting a call: either an immediate error
(thrown before anything is registered or sent), or a new pending id and
a sent frame. -/

/-- The session fields consulted and mutated when a call starts. -/
structure SessionView where
  connected : Bool
  authenticated : Bool
  pendingIds : List String
  sentFrames : List (String × String)
deriving DecidableEq, Repr

/-- Embeds the start of GatewayConnection.callAgent (lines 289-310):
throws 连接 and 认证 errors before doing anything else; otherwise
registers the pending entry and sends the agent req frame. -/
def callAgentStart (s : SessionView) (id : String) : Except String SessionView :=
  if !s.connected then .error "Gateway 未连接"
  else if !s.authenticated then .error "Gateway 未认证"
  else .ok { s with pendingIds := s.pendingIds ++ [id],
                    sentFrames := s.sentFrames ++ [("agent", id)] }

/-- Embeds the start of GatewayConnection.request (lines 371-401):
only the connected flag is checked; then the pending entry is
registered and the req frame sent. -/
def requestStart (s : SessionView) (method id : String) : Except String SessionView :=
  if !s.connected then .error "Gateway 未连接"
  else .ok { s with pendingIds := s.pendingIds ++ [id],
                    sentFrames := s.sentFrames ++ [(method, id)] }

/-! ## Reconnect scheduling

GatewayConnection.scheduleReconnect (gateway.mjs lines 423-443) and
WechatService.scheduleWsReconnect (wechat.mjs). The returned Option is
the scheduled backoff wait: none means no reconnect was scheduled. -/

/-- Reconnect fields of WechatService. -/
structure WsReconnState where
  shouldReconnect : Bool
  reconnectAttempts : Nat
deriving DecidableEq, Repr

/-- Embeds WechatService.scheduleWsReconnect: bail out when
shouldReconnect is off, otherwise increment the attempt counter and
schedule a reconnect after backoffDelay(attempts, 2000, 30000).
There is no attempt-cap check in this function. -/
def scheduleWsReconnect (st : WsReconnState) : WsReconnState × Option Nat :=
  if !st.shouldReconnect then (st, none)
  else
    let a := st.reconnectAttempts + 1
    ({ st with reconnectAttempts := a }, some (backoffDelay a 2000 30000))

/-- Reconnect fields of GatewayConnection. -/
structure GwReconnState where
  shouldReconnect : Bool
  reconnectAttempts : Nat
  maxReconnectAttempts : Nat
deriving DecidableEq, Repr

/-- Embeds GatewayConnection.scheduleReconnect: bail out when
shouldReconnect is off or the attempt counter has reached
maxReconnectAttempts; otherwise increment and schedule after
backoffDelay(attempts, 2000, 30000). -/
def scheduleReconnect (st : GwReconnState) : GwReconnState × Option Nat :=
  if !st.shouldReconnect then (st, none)
  else if st.maxReconnectAttempts ≤ st.reconnectAttempts then (st, none)
  else
    let a := st.reconnectAttempts + 1
    ({ st with reconnectAttempts := a }, some (backoffDelay a 2000 30000))

/-! ## Gateway connection flags (gateway.mjs connect handlers,
handleMessage, disconnect)

The transportOpen flag is the state of the underlying WebSocket, which
the handlers observe: the open event sets it, the close event clears
it. disconnect() requests a close but the transport only becomes
closed when its close event later fires, so frames already received
can still be delivered in between. -/

/-- Connection flags of GatewayConnection plus the transport state. -/
structure GwFlags where
  connected : Bool
  authenticated : Bool
  shouldReconnect : Bool
  transportOpen : Bool
  reconnectAttempts : Nat
deriving DecidableEq, Repr

/-- Constructor state of GatewayConnection (lines 56-61). -/
def gwInit : GwFlags :=
  { connected := false, authenticated := false, shouldReconnect := true,
    transportOpen := false, reconnectAttempts := 0 }

/-- Events affecting the connection flags: transport open and close
events, a res frame with the reserved connect id (handleMessage lines
214-223), a connected event frame (lines 247-251), and an explicit
disconnect() call. -/
inductive GwConnEvent where
  | opened
  | closed
  | connectRes (ok : Bool)
  | connectedEvent
  | disconnectCall
deriving DecidableEq, Repr

/-- One step of the flags, translated from gateway.mjs: the open
handler (lines 96-103) sets connected and resets the attempt counter;
the close handler (lines 119-132) clears connected and authenticated;
handleMessage sets authenticated on a positive connect response or a
connected event, with no connected-flag check; disconnect (lines
448-469) clears shouldReconnect, connected and authenticated. -/
def gwStep (s : GwFlags) : GwConnEvent → GwFlags
  | .opened =>
    { s with connected := true, transportOpen := true, reconnectAttempts := 0 }
  | .closed =>
    { s with connected := false, authenticated := false, transportOpen := false }
  | .connectRes ok => if ok then { s with authenticated := true } else s
  | .connectedEvent => { s with authenticated := true }
  | .disconnectCall =>
    { s with shouldReconnect := false, connected := false, authenticated := false }

/-- Run the flags machine over a list of events. -/
def runGw (s : GwFlags) (evs : List GwConnEvent) : GwFlags :=
  evs.foldl gwStep s

/-- Frame events are those delivered as WebSocket messages. -/
def isFrameEvent : GwConnEvent → Bool
  | .connectRes _ => true
  | .connectedEvent => true
  | _ => false

/-- Transport well-formedness of a trace: the transport opens only when
closed and closes only when open, and message frames are delivered only
while the transport is open. disconnect() may be called at any time; it
does not close the transport by itself (the close event does). -/
def transportWF (s : GwFlags) : List GwConnEvent → Bool
  | [] => true
  | e :: rest =>
    (match e with
     | .opened => !s.transportOpen
     | .closed => s.transportOpen
     | .connectRes _ => s.transportOpen
     | .connectedEvent => s.transportOpen
     | .disconnectCall => true) && transportWF (gwStep s e) rest

/-- Stricter trace condition: frames are only delivered while the
connected flag is set. -/
def framesOnlyWhenConnected (s : GwFlags) : List GwConnEvent → Bool
  | [] => true
  | e :: rest =>
    (!isFrameEvent e || s.connected) && framesOnlyWhenConnected (gwStep s e) rest

/-! ## Orchestrator authorization and forwarding
(bridge.mjs handleWechatMessage, config.mjs allow-list accessors) -/

/-- One allow-list entry; the addedAt timestamp recorded by
config.mjs is omitted (it is never read by the logic). -/
structure AllowedUser where
  wxid : String
  nickname : String
deriving DecidableEq, Repr

/-- Embeds config.mjs addAllowedUser (lines 167-175): push a new entry
only when no entry with this wxid exists. -/
def addAllowedUser (users : List AllowedUser) (wxid nickname : String) :
    List AllowedUser :=
  if users.any (fun u => u.wxid == wxid) then users
  else users ++ [{ wxid := wxid, nickname := nickname }]

/-- Embeds config.mjs isUserAllowed (lines 180-183). -/
def isUserAllowed (users : List AllowedUser) (wxid : String) : Bool :=
  users.any (fun u => u.wxid == wxid)

/-- The fields of an inbound message consulted by handleWechatMessage:
sender and recipient ids, content, the semantic type string, the
numeric provider msg_type, and the optional provider message id. -/
structure WxMessage where
  sender : String
  recipient : String
  content : String
  ctype : String
  msgType : Nat
  msgId : Option Nat
deriving DecidableEq, Repr

/-- Outcomes of the awaited media calls inside handleWechatMessage,
passed in as data: the saved path of a downloaded file, the parsed
image length when parseImageXml succeeds with a positive length, and
the saved path of a downloaded image. -/
structure MediaEnv where
  downloadedFilePath : Option String
  parsedImageLen : Option Nat
  downloadedImagePath : Option String
deriving DecidableEq, Repr

/-- What handleWechatMessage does with an inbound message before any
reply handling: pair the sender and send the one-time confirmation,
ignore it silently, or forward it to the gateway via callAgent. -/
inductive BridgeOutcome where
  | pairedConfirm (reply : String)
  | ignored
  | forwarded (message sessionKey : String)
deriving DecidableEq, Repr

/-- The confirmation reply sent on successful pairing. -/
def confirmPairingText : String := "✅ 配对成功！现在可以开始对话了。"

/-- Last path component, as path.basename on a slash-separated path
without trailing separator. -/
def pathBasename (p : String) : String :=
  String.mk ((p.toList.reverse.takeWhile (fun c => c ≠ '/')).reverse)

/-- Embeds the authorization and forwarding part of
Bridge.handleWechatMessage (bridge.mjs): trim the content; if the
sender is not allowed, compare the trimmed upper-cased content with
the pairing code — on a match add the sender and send the confirmation
(no gateway call), otherwise drop the message (log only); for an
allowed sender, substitute a placeholder for file and image messages
and invoke callAgent with the per-sender session key. -/
def handleWechatMessage (users : List AllowedUser) (pairingCode : String)
    (env : MediaEnv) (m : WxMessage) : List AllowedUser × BridgeOutcome :=
  let content := jsTrim m.content
  if !isUserAllowed users m.sender then
    if jsToUpper content == pairingCode then
      (addAllowedUser users m.sender "", .pairedConfirm confirmPairingText)
    else (users, .ignored)
  else
    let messageToSend :=
      if m.ctype == "file" || m.ctype == "app" || m.msgType == 49 then
        match env.downloadedFilePath with
        | some p => "[用户发送了一个文件: " ++ pathBasename p ++ "]"
        | none => "[用户发送了一个文件，但下载失败]"
      else m.content
    let messageToSend :=
      if m.ctype == "image" && m.msgId.isSome then
        match env.parsedImageLen with
        | some _ =>
          match env.downloadedImagePath with
          | some _ => "[用户发送了一张图片]"
          | none => "[用户发送了一张图片，但下载失败]"
        | none => messageToSend
      else messageToSend
    (users, .forwarded messageToSend ("agent:main:wechat:" ++ m.sender))

/-! ## Reply path extraction (bridge.mjs extractImagePaths and
extractFilePaths)

Both functions run, for each of the three root forms /Users/, /tmp/
and a tilde slash, the case-insensitive global pattern
root [^\s backtick quote doublequote newline]+ dot (ext alternation),
then strip backticks, trim, expand the leading tilde to the home
directory, keep only paths for which fs.existsSync is true, and
finally deduplicate preserving first occurrence. The filesystem is
passed in as the predicate fsExists. The scanner below reproduces the
leftmost, non-overlapping, greedy-with-backtracking behavior of the
pattern: at each position where the root matches, the class run is
consumed greedily and then given back one character at a time until a
dot followed by one of the alternatives (tried in order) matches. -/

/-- Characters allowed inside a path match: the negated class excludes
whitespace, backtick, single quote and double quote. -/
def pathCharOk (c : Char) : Bool :=
  !(jsWhitespace c || c = Char.ofNat 96 || c = Char.ofNat 39 || c = Char.ofNat 34)

/-- Case-insensitive character comparison, as the i flag. -/
def ciChar (a b : Char) : Bool := a.toLower == b.toLower

/-- Case-insensitive list-of-chars starts-with test. -/
def ciStartsWith : List Char → List Char → Bool
  | [], _ => true
  | _ :: _, [] => false
  | a :: as, b :: bs => ciChar a b && ciStartsWith as bs

/-- First extension alternative (in list order, as regex alternation)
that matches case-insensitively at the front of cs; returns its
length. -/
def extAlternationAt (exts : List (List Char)) (cs : List Char) : Option Nat :=
  match exts with
  | [] => none
  | e :: rest => if ciStartsWith e cs then some e.length else extAlternationAt rest cs

/-- Length of a dot-extension match at the front of cs, if any. -/
def dotExtAt (exts : List (List Char)) (cs : List Char) : Option Nat :=
  match cs with
  | '.' :: rest => (extAlternationAt exts rest).map (· + 1)
  | _ => none

/-- Backtracking search of the greedy class run: the largest k between
1 and the given bound such that a dot-extension matches right after the
first k characters of rest; returns k and the dot-extension length. -/
def bestSplit (exts : List (List Char)) (rest : List Char) : Nat → Option (Nat × Nat)
  | 0 => none
  | k + 1 =>
    match dotExtAt exts (rest.drop (k + 1)) with
    | some dl => some (k + 1, dl)
    | none => bestSplit exts rest k

/-- Attempt one pattern match at the current position: the root must
match case-insensitively, then the backtracking search runs over the
maximal class run. Returns the matched slice of the original text and
the remainder after it. -/
def tryMatchAt (root : List Char) (exts : List (List Char)) (cs : List Char) :
    Option (List Char × List Char) :=
  if ciStartsWith root cs then
    let rest := cs.drop root.length
    let runLen := (rest.takeWhile pathCharOk).length
    match bestSplit exts rest runLen with
    | some (k, dl) =>
      let total := root.length + k + dl
      some (cs.take total, cs.drop total)
    | none => none
  else none

/-- Global scan: collect all non-overlapping matches left to right,
advancing one character where no match starts. Fuel is the length of
the scanned text. -/
def scanPat (root : List Char) (exts : List (List Char)) :
    Nat → List Char → List (List Char)
  | 0, _ => []
  | _, [] => []
  | fuel + 1, c :: rest =>
    match tryMatchAt root exts (c :: rest) with
    | some (m, rem) => m :: scanPat root exts fuel rem
    | none => scanPat root exts fuel rest

/-- The IMAGE_EXTENSIONS alternation of bridge.mjs. -/
def imageExtensions : List String := ["jpg", "jpeg", "png", "gif", "webp"]

/-- The FILE_EXTENSIONS alternation of bridge.mjs. -/
def fileExtensions : List String :=
  ["pdf", "docx", "doc", "xlsx", "xls", "pptx", "ppt", "zip", "rar", "7z",
   "tar", "gz", "txt", "csv", "mp3", "mp4", "mov", "avi", "mkv", "wav",
   "flac", "aac"]

/-- The three pattern roots used by both extractors. -/
def pathPatternRoots : List String := ["/Users/", "/tmp/", "~/"]

/-- Per-match cleanup of both extractors: remove backticks, trim, and
expand a leading tilde-slash to the home directory (the replace of the
first tilde with home). -/
def cleanMatch (home : String) (m : List Char) : String :=
  let noBackticks := m.filter (fun c => c ≠ Char.ofNat 96)
  let trimmed := jsTrimList noBackticks
  match trimmed with
  | '~' :: '/' :: rest => home ++ String.mk ('/' :: rest)
  | other => String.mk other

/-- All cleaned candidate paths of a reply text, in the order the
source pushes them: pattern by pattern, match by match. -/
def collectCandidates (exts : List String) (home : String) (text : String) :
    List String :=
  (pathPatternRoots.map (fun root =>
    (scanPat root.toList (exts.map String.toList)
      text.toList.length text.toList).map (cleanMatch home))).flatten

/-- Spread of a Set built by insertion: deduplicate keeping the first
occurrence. -/
def dedupKeepFirst (seen : List String) : List String → List String
  | [] => []
  | x :: xs =>
    if seen.contains x then dedupKeepFirst seen xs
    else x :: dedupKeepFirst (x :: seen) xs

/-- Shared body of both extractors: candidates, existence filter,
deduplication. -/
def extractPathsImpl (exts : List String) (fsExists : String → Bool)
    (home : String) (text : String) : List String :=
  dedupKeepFirst [] ((collectCandidates exts home text).filter fsExists)

/-- Embeds Bridge.extractImagePaths. -/
def extractImagePaths (fsExists : String → Bool) (home : String)
    (text : String) : List String :=
  extractPathsImpl imageExtensions fsExists home text

/-- Embeds Bridge.extractFilePaths. -/
def extractFilePaths (fsExists : String → Bool) (home : String)
    (text : String) : List String :=
  extractPathsImpl fileExtensions fsExists home text

/-! ## Chunked media download loops (wechat.mjs downloadImage and the
chunked fallback of downloadFile)

The i-th HTTP response of the server is resp i, reduced to the fields
the loop control reads: the status code, whether Data.Data with a
positive iLen is present, the decoded chunk bytes, and the StartPos
and DataLen fields echoed back. The loops are embedded with explicit
fuel; running out of fuel stands for not having terminated within that
many iterations. -/

/-- One per-chunk server response, as consumed by the loop control. -/
structure ChunkResp where
  code : Nat
  hasData : Bool
  iLen : Nat
  chunk : List Nat
  startPosField : Nat
  dataLen : Nat

/-- Result of the image download loop. -/
inductive ImgLoopOut where
  | finished (chunks : List (List Nat))
  | errored
  | fuelOut
deriving DecidableEq, Repr

/-- Embeds the while loop of WechatService.downloadImage: while
startPos is below totalLen, fetch the next chunk; a non-200 code
aborts the whole download; a response with data and positive iLen
appends the chunk and sets startPos to StartPos + DataLen; anything
else breaks out of the loop. -/
def imgLoop (resp : Nat → ChunkResp) (totalLen : Nat) :
    Nat → Nat → Nat → List (List Nat) → ImgLoopOut
  | 0, _, _, _ => .fuelOut
  | fuel + 1, startPos, i, chunks =>
    if startPos < totalLen then
      let r := resp i
      if r.code ≠ 200 then .errored
      else if r.hasData && decide (0 < r.iLen) then
        imgLoop resp totalLen fuel (r.startPosField + r.dataLen) (i + 1)
          (chunks ++ [r.chunk])
      else .finished chunks
    else .finished chunks

/-- Result of the file download fallback loop. -/
inductive FileLoopOut where
  | finished (chunks : List (List Nat))
  | fuelOut
deriving DecidableEq, Repr

/-- The next offset of the file fallback loop, with the falsy-or
semantics of the source: a zero StartPos falls back to the current
offset and a zero DataLen falls back to the decoded chunk length. -/
def fileNextPos (r : ChunkResp) (startPos : Nat) : Nat :=
  (if r.startPosField ≠ 0 then r.startPosField else startPos) +
  (if r.dataLen ≠ 0 then r.dataLen else r.chunk.length)

/-- Embeds the chunked fallback while loop of WechatService.downloadFile:
while startPos is below totalLen, fetch the next chunk; a non-200 code
breaks; a response with data and positive iLen appends the chunk and
advances by fileNextPos; anything else breaks. -/
def fileLoop (resp : Nat → ChunkResp) (totalLen : Nat) :
    Nat → Nat → Nat → List (List Nat) → FileLoopOut
  | 0, _, _, _ => .fuelOut
  | fuel + 1, startPos, i, chunks =>
    if startPos < totalLen then
      let r := resp i
      if r.code ≠ 200 then .finished chunks
      else if r.hasData && decide (0 < r.iLen) then
        fileLoop resp totalLen fuel (fileNextPos r startPos) (i + 1)
          (chunks ++ [r.chunk])
      else .finished chunks
    else .finished chunks

/-- The image loop terminates for this response stream and total. -/
def ImgTerminates (resp : Nat → ChunkResp) (totalLen : Nat) : Prop :=
  ∃ fuel, imgLoop resp totalLen fuel 0 0 [] ≠ ImgLoopOut.fuelOut

/-- The file fallback loop terminates for this response stream and
total. -/
def FileTerminates (resp : Nat → ChunkResp) (totalLen : Nat) : Prop :=
  ∃ fuel, fileLoop resp totalLen fuel 0 0 [] ≠ FileLoopOut.fuelOut

/-- A response the image loop accepts as a data chunk. -/
def imgAccepted (r : ChunkResp) : Bool :=
  (r.code == 200) && r.hasData && decide (0 < r.iLen)

/-- The offset of the image loop before its i-th request, assuming
every earlier response was accepted (after a rejected response the
loop has exited and the value is unused). -/
def imgPosAt (resp : Nat → ChunkResp) : Nat → Nat
  | 0 => 0
  | i + 1 =>
    if imgAccepted (resp i) then (resp i).startPosField + (resp i).dataLen
    else imgPosAt resp i

/-- The offset of the file fallback loop before its i-th request. -/
def filePosAt (resp : Nat → ChunkResp) : Nat → Nat
  | 0 => 0
  | i + 1 =>
    if imgAccepted (resp i) then fileNextPos (resp i) (filePosAt resp i)
    else filePosAt resp i

/-! ## Theorems -/

/-- C4: for every attempt number n at least 1 and durations base and
max, the backoff delay equals min(base * 2 ^ n, max), the contract
computeDelay of the spec; in particular the delay for attempt 1 with
base 2000 and max 30000 is 4000 and for attempt 5 it is 30000. -/
theorem backoffDelay_matches_contract (n base maxDelay : Nat) (_h : 1 ≤ n) :
    backoffDelay n base maxDelay = computeDelaySpec n base maxDelay ∧
    backoffDelay 1 2000 30000 = 4000 ∧
    backoffDelay 5 2000 30000 = 30000 :=
  ⟨rfl, by decide, by decide⟩

/-- Witness for C4 at attempt 1. -/
theorem backoffDelay_matches_contract_witness :
    1 ≤ 1 ∧ backoffDelay 1 2000 30000 = computeDelaySpec 1 2000 30000 :=
  ⟨Nat.le_refl 1, (backoffDelay_matches_contract 1 2000 30000 (Nat.le_refl 1)).1⟩

/-- C5 counterexample: a request made while connected but not
authenticated does not fail: it registers a pending entry and sends
its frame, contradicting the claim that any request or callAgent made
while not authenticated fails immediately without registering or
sending. -/
theorem request_unauthenticated_counterexample :
    requestStart ⟨true, false, [], []⟩ "send" "id1" =
      Except.ok ⟨true, false, ["id1"], [("send", "id1")]⟩ := rfl

/-- C5 amended: callAgent fails immediately (nothing registered,
nothing sent) when the session is not connected or not authenticated;
request fails immediately only when the session is not connected, and
while connected - authenticated or not - it registers its pending
entry and sends its frame. Neither call is ever queued. -/
theorem callAgent_request_guards (s : SessionView) (method id : String) :
    (s.connected = false →
       requestStart s method id = Except.error "Gateway 未连接" ∧
       callAgentStart s id = Except.error "Gateway 未连接") ∧
    (s.connected = true → s.authenticated = false →
       callAgentStart s id = Except.error "Gateway 未认证") ∧
    (s.connected = true →
       requestStart s method id =
         Except.ok { s with pendingIds := s.pendingIds ++ [id],
                            sentFrames := s.sentFrames ++ [(method, id)] }) ∧
    (s.connected = true → s.authenticated = true →
       callAgentStart s id =
         Except.ok { s with pendingIds := s.pendingIds ++ [id],
                            sentFrames := s.sentFrames ++ [("agent", id)] }) := by
  refine ⟨fun hc => ⟨?_, ?_⟩, fun hc ha => ?_, fun hc => ?_, fun hc ha => ?_⟩
  · simp [requestStart, hc]
  · simp [callAgentStart, hc]
  · simp [callAgentStart, hc, ha]
  · simp [requestStart, hc]
  · simp [callAgentStart, hc, ha]

/-- Witness for C5 amended: callAgent while connected but not
authenticated fails with the 认证 error. -/
theorem callAgent_request_guards_witness :
    callAgentStart ⟨true, false, [], []⟩ "agent-1" = Except.error "Gateway 未认证" :=
  (callAgent_request_guards ⟨true, false, [], []⟩ "send" "agent-1").2.1 rfl rfl

/-- C6 counterexample: with shouldReconnect on and the attempt counter
already at the gateway default cap of 10, the messaging-service
session still schedules another reconnect (with the capped 30000ms
delay), while the gateway session with the same counter and cap
schedules none. -/
theorem wsReconnect_no_cap_counterexample :
    (scheduleWsReconnect ⟨true, 10⟩).2 = some 30000 ∧
    (scheduleWsReconnect ⟨true, 10⟩).1.reconnectAttempts = 11 ∧
    (scheduleReconnect ⟨true, 10, 10⟩).2 = none := by decide

/-- C6 amended: the messaging-service session uses the same backoff
policy as the gateway session (backoffDelay with base 2000 and max
30000) but applies no attempt cap: whenever shouldReconnect is on, a
further reconnect is scheduled regardless of how many attempts
failed; only the gateway session stops once its counter reaches
maxReconnectAttempts. -/
theorem wsReconnect_uncapped_backoff (st : WsReconnState)
    (h : st.shouldReconnect = true) :
    (scheduleWsReconnect st).2 =
      some (backoffDelay (st.reconnectAttempts + 1) 2000 30000) ∧
    (scheduleWsReconnect st).1.reconnectAttempts = st.reconnectAttempts + 1 ∧
    (∀ g : GwReconnState, g.shouldReconnect = true →
       g.maxReconnectAttempts ≤ g.reconnectAttempts →
       (scheduleReconnect g).2 = none) := by
  refine ⟨?_, ?_, fun g hg hcap => ?_⟩
  · simp [scheduleWsReconnect, h]
  · simp [scheduleWsReconnect, h]
  · simp [scheduleReconnect, hg, hcap]

/-- Witness for C6 amended at ten failed attempts. -/
theorem wsReconnect_uncapped_backoff_witness :
    (scheduleWsReconnect ⟨true, 10⟩).2 = some (backoffDelay 11 2000 30000) :=
  (wsReconnect_uncapped_backoff ⟨true, 10⟩ rfl).1

/-- The stream-event list of the C2 example: two deltas, one full-text
snapshot, then a lifecycle end. -/
def c2Events : List GwEvent :=
  [GwEvent.assistantEvent none (some "Hel"),
   GwEvent.assistantEvent none (some "lo"),
   GwEvent.assistantEvent (some " world") none,
   GwEvent.lifecycleEvent "end" none]

/-- C2 counterexample: on the example stream the call resolves with
text "world", not with " world" as the claim states - the lifecycle
end handler trims the accumulated buffer before resolving. -/
theorem agent_snapshot_counterexample :
    (runPending RKind.agent initPending c2Events).settled =
      [SettleOutcome.resolvedText "world"] ∧
    ("world" : String) ≠ " world" := by decide

/-- C2 amended: on the stream deltas "Hel", "lo" followed by the
full-text snapshot " world" and a lifecycle end, the call resolves
exactly once with text "world": the snapshot replaces the accumulated
delta buffer (the buffer right before the end event is " world", not
"Hello world") and the resolve trims it. -/
theorem agent_snapshot_replaces_deltas :
    (runPending RKind.agent initPending c2Events).settled =
      [SettleOutcome.resolvedText "world"] ∧
    (runPending RKind.agent initPending (c2Events.take 3)).buffer = " world" ∧
    ("world" : String) ≠ "Hello world" := by decide

/-- Invariant of the pending-request machine: there has been at most
one settle invocation, the entry is present exactly while no settle
has happened, and an armed timer implies a present entry. -/
def pendingInv (st : PendingState) : Prop :=
  st.settled.length ≤ 1 ∧ (st.present = true ↔ st.settled = []) ∧
  (st.timerArmed = true → st.present = true)

theorem pendingStep_inv (kind : RKind) (st : PendingState) (e : GwEvent)
    (hi : pendingInv st)
    (ht : e = GwEvent.timeoutFire → st.timerArmed = true) :
    pendingInv (pendingStep kind st e) := by
  obtain ⟨h1, h2, h3⟩ := hi
  by_cases hp : st.present = true
  · have hs : st.settled = [] := h2.mp hp
    cases e with
    | resFrame ok acc =>
      simp only [pendingStep, hp, if_true]
      by_cases hk : (kind.isAgent && acc) = true
      · simpa [hk] using ⟨h1, h2, h3⟩
      · simp [hk, pendingInv, hs]
    | assistantEvent t d =>
      cases t with
      | some s => cases kind <;> simp_all [pendingStep, pendingInv, RKind.isAgent]
      | none =>
        cases d with
        | some s => cases kind <;> simp_all [pendingStep, pendingInv, RKind.isAgent]
        | none => cases kind <;> simp_all [pendingStep, pendingInv, RKind.isAgent]
    | lifecycleEvent phase m =>
      cases kind with
      | plain => simp_all [pendingStep, pendingInv, RKind.isAgent]
      | agent =>
        by_cases he : phase = "end"
        · simp [pendingStep, hp, RKind.isAgent, he, pendingInv, hs]
        · by_cases her : phase = "error"
          · simp [pendingStep, hp, RKind.isAgent, he, her, pendingInv, hs]
          · simp [pendingStep, hp, RKind.isAgent, he, her, pendingInv, hs, h3]
    | timeoutFire => simp [pendingStep, pendingInv, hs]
    | disconnectCall => simp [pendingStep, hp, pendingInv, hs]
  · have hp' : st.present = false := by
      cases hcc : st.present
      · rfl
      · exact absurd hcc hp
    have hs : st.settled ≠ [] := fun hc => hp (h2.mpr hc)
    have hta : st.timerArmed = false := by
      cases hcc : st.timerArmed
      · rfl
      · exact absurd (h3 hcc) hp
    cases e with
    | resFrame ok acc => simp [pendingStep, hp', pendingInv, h1, h2, h3, hs, hta]
    | assistantEvent t d => simp [pendingStep, hp', pendingInv, h1, h2, h3, hs, hta]
    | lifecycleEvent phase m =>
      simp [pendingStep, hp', pendingInv, h1, h2, h3, hs, hta]
    | timeoutFire => exact absurd (ht rfl) (by simp [hta])
    | disconnectCall => simp [pendingStep, hp', pendingInv, h1, h2, h3, hs, hta]

theorem pendingStep_settled_mono (kind : RKind) (st : PendingState) (e : GwEvent) :
    st.settled.length ≤ (pendingStep kind st e).settled.length := by
  cases e with
  | resFrame ok acc =>
    by_cases hp : st.present = true
    · by_cases hk : (kind.isAgent && acc) = true
      · simp [pendingStep, hp, hk]
      · simp [pendingStep, hp, hk]
    · simp [pendingStep, hp]
  | assistantEvent t d =>
    by_cases hp : (st.present && kind.isAgent) = true
    · cases t with
      | some s => simp [pendingStep, hp]
      | none => cases d with
        | some s => simp [pendingStep, hp]
        | none => simp [pendingStep, hp]
    · simp [pendingStep, hp]
  | lifecycleEvent phase m =>
    by_cases hp : (st.present && kind.isAgent) = true
    · by_cases he : phase = "end"
      · simp [pendingStep, hp, he]
      · by_cases her : phase = "error" <;> simp [pendingStep, hp, he, her]
    · simp [pendingStep, hp]
  | timeoutFire => simp [pendingStep]
  | disconnectCall =>
    by_cases hp : st.present = true <;> simp [pendingStep, hp]

theorem pendingStep_terminal_settles (kind : RKind) (st : PendingState)
    (e : GwEvent) (hi : pendingInv st)
    (he : isTerminalEvent kind e = true) :
    (pendingStep kind st e).settled ≠ [] := by
  obtain ⟨h1, h2, h3⟩ := hi
  by_cases hp : st.present = true
  · cases e with
    | resFrame ok acc =>
      have hk : (kind.isAgent && acc) = false := by
        have he' : (!(kind.isAgent && acc)) = true := he
        cases hcc : (kind.isAgent && acc)
        · rfl
        · rw [hcc] at he'
          exact absurd he' (by decide)
      simp [pendingStep, hp, hk]
    | assistantEvent t d => exact absurd he (by simp [isTerminalEvent])
    | lifecycleEvent phase m =>
      have hk : kind.isAgent = true ∧ (phase = "end" ∨ phase = "error") := by
        have he' : (kind.isAgent && (phase == "end" || phase == "error")) = true := he
        simpa using he'
      rcases hk.2 with hph | hph
      · simp [pendingStep, hp, hk.1, hph]
      · by_cases hend : phase = "end"
        · simp [pendingStep, hp, hk.1, hend]
        · simp [pendingStep, hp, hk.1, hend, hph]
    | timeoutFire => simp [pendingStep]
    | disconnectCall => simp [pendingStep, hp]
  · have hp' : st.present = false := by
      cases hcc : st.present
      · rfl
      · exact absurd hcc hp
    have hs : st.settled ≠ [] := fun hc => hp (h2.mpr hc)
    cases e with
    | resFrame ok acc => simpa [pendingStep, hp'] using hs
    | assistantEvent t d => simpa [pendingStep, hp'] using hs
    | lifecycleEvent phase m => simpa [pendingStep, hp'] using hs
    | timeoutFire => simp [pendingStep]
    | disconnectCall => simpa [pendingStep, hp'] using hs

theorem runPending_settled_mono (kind : RKind) (evs : List GwEvent)
    (st : PendingState) :
    st.settled.length ≤ (runPending kind st evs).settled.length := by
  induction evs generalizing st with
  | nil => simp [runPending]
  | cons e rest ih =>
    calc st.settled.length ≤ (pendingStep kind st e).settled.length :=
          pendingStep_settled_mono kind st e
    _ ≤ (runPending kind (pendingStep kind st e) rest).settled.length := ih _
    _ = (runPending kind st (e :: rest)).settled.length := by
          simp [runPending, List.foldl_cons]

theorem runPending_inv (kind : RKind) (evs : List GwEvent) (st : PendingState)
    (hi : pendingInv st) (hwf : wfEvents kind st evs = true) :
    pendingInv (runPending kind st evs) := by
  induction evs generalizing st with
  | nil => simpa [runPending] using hi
  | cons e rest ih =>
    rw [wfEvents, Bool.and_eq_true] at hwf
    have ht : e = GwEvent.timeoutFire → st.timerArmed = true := by
      intro hee
      rcases Bool.or_eq_true _ _ |>.mp hwf.1 with hne | hta
      · exact absurd hee (by simpa using hne)
      · exact hta
    have hstep := pendingStep_inv kind st e hi ht
    simpa [runPending, List.foldl_cons] using ih (pendingStep kind st e) hstep hwf.2

theorem runPending_terminal_settles (kind : RKind) (evs : List GwEvent)
    (st : PendingState) (hi : pendingInv st) (hwf : wfEvents kind st evs = true)
    (hterm : evs.any (isTerminalEvent kind) = true) :
    (runPending kind st evs).settled ≠ [] := by
  induction evs generalizing st with
  | nil => simp at hterm
  | cons e rest ih =>
    rw [wfEvents, Bool.and_eq_true] at hwf
    have ht : e = GwEvent.timeoutFire → st.timerArmed = true := by
      intro hee
      rcases Bool.or_eq_true _ _ |>.mp hwf.1 with hne | hta
      · exact absurd hee (by simpa using hne)
      · exact hta
    have hstep := pendingStep_inv kind st e hi ht
    rw [List.any_cons, Bool.or_eq_true] at hterm
    rcases hterm with hte | htr
    · have hne := pendingStep_terminal_settles kind st e hi hte
      have hlen : 1 ≤ (pendingStep kind st e).settled.length :=
        Nat.one_le_iff_ne_zero.mpr (by simpa [List.length_eq_zero] using hne)
      have hmono := runPending_settled_mono kind rest (pendingStep kind st e)
      have : 1 ≤ (runPending kind st (e :: rest)).settled.length := by
        simpa [runPending, List.foldl_cons] using le_trans hlen hmono
      intro hc
      rw [hc] at this
      simp at this
    · have := ih (pendingStep kind st e) hstep hwf.2 htr
      simpa [runPending, List.foldl_cons] using this

/-- C1: for a pending request registered by callAgent or request, over
every well-formed event sequence (a timer fires only while armed) at
most one of the resolve and reject continuations is invoked, and if
any of a terminal response frame, a terminal stream event, a timeout
firing or a disconnect() call occurs, exactly one is invoked - the
entry leaves the pending table exactly once and the losing paths are
no-ops. -/
theorem pendingRequest_settles_exactly_once (kind : RKind)
    (evs : List GwEvent) (hwf : wfEvents kind initPending evs = true) :
    (runPending kind initPending evs).settled.length ≤ 1 ∧
    (evs.any (isTerminalEvent kind) = true →
      (runPending kind initPending evs).settled.length = 1) := by
  have hinit : pendingInv initPending := by
    refine ⟨by simp [initPending], by simp [initPending], by simp [initPending]⟩
  have hinv := runPending_inv kind evs initPending hinit hwf
  refine ⟨hinv.1, fun hterm => ?_⟩
  have hne := runPending_terminal_settles kind evs initPending hinit hwf hterm
  have h1 : 1 ≤ (runPending kind initPending evs).settled.length :=
    Nat.one_le_iff_ne_zero.mpr (by simpa [List.length_eq_zero] using hne)
  exact Nat.le_antisymm hinv.1 h1

/-- Witness for C1: a timeout firing settles the request exactly
once. -/
theorem pendingRequest_settles_exactly_once_witness :
    wfEvents RKind.agent initPending [GwEvent.timeoutFire] = true ∧
    (runPending RKind.agent initPending [GwEvent.timeoutFire]).settled.length = 1 :=
  ⟨by decide,
   (pendingRequest_settles_exactly_once RKind.agent [GwEvent.timeoutFire]
      (by decide)).2 (by decide)⟩

theorem runPending_assistantOnly (evs : List GwEvent) (st : PendingState)
    (hp : st.present = true)
    (ha : ∀ e ∈ evs, isAssistantEvent e = true) :
    (runPending RKind.agent st evs).present = true ∧
    (runPending RKind.agent st evs).settled = st.settled ∧
    (runPending RKind.agent st evs).timerArmed = st.timerArmed := by
  induction evs generalizing st with
  | nil => exact ⟨hp, rfl, rfl⟩
  | cons e rest ih =>
    have he : isAssistantEvent e = true := ha e (List.mem_cons_self e rest)
    cases e with
    | resFrame ok acc => simp [isAssistantEvent] at he
    | lifecycleEvent phase m => simp [isAssistantEvent] at he
    | timeoutFire => simp [isAssistantEvent] at he
    | disconnectCall => simp [isAssistantEvent] at he
    | assistantEvent t d =>
      have hrest : ∀ e ∈ rest, isAssistantEvent e = true :=
        fun e hm => ha e (List.mem_cons_of_mem _ hm)
      have hstep : (pendingStep RKind.agent st (GwEvent.assistantEvent t d)).present = true ∧
          (pendingStep RKind.agent st (GwEvent.assistantEvent t d)).settled = st.settled ∧
          (pendingStep RKind.agent st (GwEvent.assistantEvent t d)).timerArmed = st.timerArmed := by
        cases t with
        | some s => simp [pendingStep, hp, RKind.isAgent]
        | none => cases d with
          | some s => simp [pendingStep, hp, RKind.isAgent]
          | none => simp [pendingStep, hp, RKind.isAgent]
      have := ih (pendingStep RKind.agent st (GwEvent.assistantEvent t d))
        hstep.1 hrest
      simpa [runPending, List.foldl_cons, hstep.2.1, hstep.2.2] using this

/-- C3: an accepted res frame for a callAgent id leaves the machine
state unchanged - it removes nothing and settles nothing - and when a
lifecycle end event for the same run id arrives later, the call
settles exactly once, resolving with the text accumulated from the
assistant stream (trimmed), never early on the acknowledgement. -/
theorem acceptedRes_never_resolves (pre1 pre2 : List GwEvent)
    (h1 : ∀ e ∈ pre1, isAssistantEvent e = true)
    (h2 : ∀ e ∈ pre2, isAssistantEvent e = true) :
    runPending RKind.agent initPending (pre1 ++ [GwEvent.resFrame true true]) =
      runPending RKind.agent initPending pre1 ∧
    (runPending RKind.agent initPending
        (pre1 ++ [GwEvent.resFrame true true] ++ pre2 ++
          [GwEvent.lifecycleEvent "end" none])).settled =
      [SettleOutcome.resolvedText
        (jsTrim (runPending RKind.agent initPending (pre1 ++ pre2)).buffer)] := by
  have hinit : (initPending).present = true := by simp [initPending]
  have hs1 := runPending_assistantOnly pre1 initPending hinit h1
  have hacc : pendingStep RKind.agent (runPending RKind.agent initPending pre1)
      (GwEvent.resFrame true true) = runPending RKind.agent initPending pre1 := by
    simp [pendingStep, hs1.1, RKind.isAgent]
  constructor
  · show (pre1 ++ [GwEvent.resFrame true true]).foldl (pendingStep RKind.agent)
        initPending = _
    rw [List.foldl_append]
    simpa [runPending] using hacc
  · have hs2 := runPending_assistantOnly pre2
      (runPending RKind.agent initPending pre1) hs1.1 h2
    have hsettled1 : (runPending RKind.agent initPending pre1).settled = [] := by
      simpa [initPending] using hs1.2.1
    have hsettled2 : (runPending RKind.agent
        (runPending RKind.agent initPending pre1) pre2).settled = [] := by
      rw [hs2.2.1, hsettled1]
    have hcollapse : runPending RKind.agent initPending
        (pre1 ++ [GwEvent.resFrame true true] ++ pre2 ++
          [GwEvent.lifecycleEvent "end" none]) =
        pendingStep RKind.agent
          (runPending RKind.agent (runPending RKind.agent initPending pre1) pre2)
          (GwEvent.lifecycleEvent "end" none) := by
      show (pre1 ++ [GwEvent.resFrame true true] ++ pre2 ++
          [GwEvent.lifecycleEvent "end" none]).foldl (pendingStep RKind.agent)
          initPending = _
      rw [List.foldl_append, List.foldl_append, List.foldl_append]
      simp only [List.foldl_cons, List.foldl_nil]
      rw [show (List.foldl (pendingStep RKind.agent) initPending pre1) =
            runPending RKind.agent initPending pre1 from rfl]
      rw [hacc]
      rfl
    have hbuf : (runPending RKind.agent
        (runPending RKind.agent initPending pre1) pre2).buffer =
        (runPending RKind.agent initPending (pre1 ++ pre2)).buffer := by
      show _ = ((pre1 ++ pre2).foldl (pendingStep RKind.agent) initPending).buffer
      rw [List.foldl_append]
      rfl
    rw [hcollapse]
    simp [pendingStep, hs2.1, RKind.isAgent, hsettled2, hbuf]

/-- Witness for C3 with one delta before and one snapshot after the
acknowledgement. -/
theorem acceptedRes_never_resolves_witness :
    (runPending RKind.agent initPending
        ([GwEvent.assistantEvent none (some "a")] ++
          [GwEvent.resFrame true true] ++
          [GwEvent.assistantEvent (some "b") none] ++
          [GwEvent.lifecycleEvent "end" none])).settled =
      [SettleOutcome.resolvedText
        (jsTrim (runPending RKind.agent initPending
          ([GwEvent.assistantEvent none (some "a")] ++
            [GwEvent.assistantEvent (some "b") none])).buffer)] :=
  (acceptedRes_never_resolves [GwEvent.assistantEvent none (some "a")]
    [GwEvent.assistantEvent (some "b") none]
    (by decide) (by decide)).2

theorem isUserAllowed_addAllowedUser_self (users : List AllowedUser)
    (w n : String) : isUserAllowed (addAllowedUser users w n) w = true := by
  by_cases h : users.any (fun u => u.wxid == w) = true
  · simp [addAllowedUser, h, isUserAllowed]
  · simp [addAllowedUser, h, isUserAllowed, List.any_append]

/-- C7 counterexample: with pairing code ABC123, the message content
" ABC123 " (with surrounding spaces) does not case-insensitively equal
the code, so the claim requires it to be silently dropped; the code
instead trims the content first, pairs the sender and sends the
confirmation. -/
theorem pairing_untrimmed_counterexample :
    jsToUpper " ABC123 " ≠ "ABC123" ∧
    handleWechatMessage [] "ABC123" ⟨none, none, none⟩
        ⟨"u1", "bot", " ABC123 ", "text", 1, none⟩ =
      ([⟨"u1", ""⟩], BridgeOutcome.pairedConfirm confirmPairingText) := by decide

/-- C7 amended: the pairing comparison is made on the whitespace
trimmed message content: for a sender outside the allow-list, if the
trimmed content case-insensitively equals the current pairing code
(codes are generated upper-case) the sender is added, the one-time
confirmation is the only reply and no gateway call is made; otherwise
the message is dropped with no reply and no gateway call; and an
ordinary text message of the now-paired sender is forwarded to the
gateway with the per-sender session key. -/
theorem pairing_flow_trimmed (users : List AllowedUser) (code : String)
    (env env2 : MediaEnv) (m m2 : WxMessage)
    (hcode : jsToUpper code = code)
    (hna : isUserAllowed users m.sender = false) :
    (jsToUpper (jsTrim m.content) = jsToUpper code →
       handleWechatMessage users code env m =
         (addAllowedUser users m.sender "",
          BridgeOutcome.pairedConfirm confirmPairingText)) ∧
    (jsToUpper (jsTrim m.content) ≠ jsToUpper code →
       handleWechatMessage users code env m = (users, BridgeOutcome.ignored)) ∧
    (m2.sender = m.sender → m2.ctype = "text" → m2.msgType = 1 →
       handleWechatMessage (addAllowedUser users m.sender "") code env2 m2 =
         (addAllowedUser users m.sender "",
          BridgeOutcome.forwarded m2.content ("agent:main:wechat:" ++ m2.sender))) := by
  refine ⟨fun h => ?_, fun h => ?_, fun hs hct hmt => ?_⟩
  · have h' : jsToUpper (jsTrim m.content) = code := h.trans hcode
    simp [handleWechatMessage, hna, h']
  · have h' : jsToUpper (jsTrim m.content) ≠ code := fun hc => h (hc.trans hcode.symm)
    simp [handleWechatMessage, hna, h']
  · have hall : isUserAllowed (addAllowedUser users m.sender "") m2.sender = true := by
      rw [hs]
      exact isUserAllowed_addAllowedUser_self users m.sender ""
    simp [handleWechatMessage, hall, hct, hmt]

/-- Witness for C7 amended: lower-case pairing message pairs the
sender, and the next ordinary message of the paired sender is
forwarded. -/
theorem pairing_flow_trimmed_witness :
    handleWechatMessage [] "ABC123" ⟨none, none, none⟩
        ⟨"u1", "bot", "abc123", "text", 1, none⟩ =
      ([⟨"u1", ""⟩], BridgeOutcome.pairedConfirm confirmPairingText) ∧
    handleWechatMessage [⟨"u1", ""⟩] "ABC123" ⟨none, none, none⟩
        ⟨"u1", "bot", "hello", "text", 1, none⟩ =
      ([⟨"u1", ""⟩], BridgeOutcome.forwarded "hello" "agent:main:wechat:u1") :=
  ⟨(pairing_flow_trimmed [] "ABC123" ⟨none, none, none⟩ ⟨none, none, none⟩
      ⟨"u1", "bot", "abc123", "text", 1, none⟩
      ⟨"u1", "bot", "hello", "text", 1, none⟩ (by decide) (by decide)).1 (by decide),
   (pairing_flow_trimmed [] "ABC123" ⟨none, none, none⟩ ⟨none, none, none⟩
      ⟨"u1", "bot", "abc123", "text", 1, none⟩
      ⟨"u1", "bot", "hello", "text", 1, none⟩ (by decide) (by decide)).2.2
      rfl rfl rfl⟩

theorem mem_dedupKeepFirst (p : String) (xs : List String) :
    ∀ seen, p ∈ dedupKeepFirst seen xs → p ∈ xs := by
  induction xs with
  | nil => intro seen h; simp [dedupKeepFirst] at h
  | cons x rest ih =>
    intro seen hp
    by_cases h : seen.contains x = true
    · simp only [dedupKeepFirst, h, if_true] at hp
      exact List.mem_cons_of_mem _ (ih _ hp)
    · simp only [dedupKeepFirst, h, if_false, Bool.false_eq_true] at hp
      rcases List.mem_cons.mp hp with h1 | h2
      · exact h1 ▸ List.mem_cons_self _ _
      · exact List.mem_cons_of_mem _ (ih _ h2)

theorem extractPathsImpl_only_existing (exts : List String)
    (fs : String → Bool) (home text p : String)
    (hp : p ∈ extractPathsImpl exts fs home text) : fs p = true :=
  List.of_mem_filter (mem_dedupKeepFirst p _ [] hp)

/-- C8: both reply-path extractors return only paths for which the
existence check holds; and on the reply
"here: /tmp/x/photo.jpg and /tmp/x/notes.pdf" over a filesystem where
only /tmp/x/photo.jpg exists, image extraction returns exactly that
path and file extraction returns nothing. -/
theorem extractors_return_only_existing :
    (∀ (fs : String → Bool) (home text p : String),
       p ∈ extractImagePaths fs home text → fs p = true) ∧
    (∀ (fs : String → Bool) (home text p : String),
       p ∈ extractFilePaths fs home text → fs p = true) ∧
    extractImagePaths (fun s => s == "/tmp/x/photo.jpg") "/Users/laolin"
        "here: /tmp/x/photo.jpg and /tmp/x/notes.pdf" = ["/tmp/x/photo.jpg"] ∧
    extractFilePaths (fun s => s == "/tmp/x/photo.jpg") "/Users/laolin"
        "here: /tmp/x/photo.jpg and /tmp/x/notes.pdf" = [] := by
  refine ⟨fun fs home text p hp =>
            extractPathsImpl_only_existing imageExtensions fs home text p hp,
          fun fs home text p hp =>
            extractPathsImpl_only_existing fileExtensions fs home text p hp,
          ?_, ?_⟩
  · decide
  · decide

/-- Witness for C8: the returned image path indeed passes the
existence check. -/
theorem extractors_return_only_existing_witness :
    (fun s => s == "/tmp/x/photo.jpg") "/tmp/x/photo.jpg" = true :=
  extractors_return_only_existing.1 (fun s => s == "/tmp/x/photo.jpg")
    "/Users/laolin" "here: /tmp/x/photo.jpg and /tmp/x/notes.pdf"
    "/tmp/x/photo.jpg" (by decide)

/-- The adversarial response stream: status 200 and data present with
a positive iLen, but an empty chunk echoed with StartPos 0 and DataLen
0, so the offset never advances. -/
def stallingResp : Nat → ChunkResp := fun _ =>
  { code := 200, hasData := true, iLen := 1, chunk := [],
    startPosField := 0, dataLen := 0 }

theorem imgLoop_stallingResp (fuel : Nat) :
    ∀ (i : Nat) (chunks : List (List Nat)),
      imgLoop stallingResp 10 fuel 0 i chunks = ImgLoopOut.fuelOut := by
  induction fuel with
  | zero => intro i chunks; rfl
  | succ n ih =>
    intro i chunks
    show imgLoop stallingResp 10 (n + 1) 0 i chunks = _
    simp only [imgLoop, stallingResp]
    norm_num
    exact ih (i + 1) (chunks ++ [[]])

/-- C9 counterexample: against a response stream whose every chunk
response reports fewer bytes than requested and does not advance the
offset (StartPos 0, DataLen 0, positive iLen), the image download loop
never finishes, for any bound on the number of iterations - it loops
unboundedly, contradicting the claim that the loop terminates for
every sequence of per-chunk responses. -/
theorem downloadImage_nontermination_counterexample :
    ¬ ImgTerminates stallingResp 10 := by
  rintro ⟨fuel, h⟩
  exact h (imgLoop_stallingResp fuel 0 [])

theorem imgLoop_terminates_of_progress (resp : Nat → ChunkResp) (total : Nat)
    (h : ∀ i, imgAccepted (resp i) = true →
      imgPosAt resp i < imgPosAt resp (i + 1)) :
    ∀ (fuel i : Nat) (chunks : List (List Nat)),
      total - imgPosAt resp i < fuel →
      imgLoop resp total fuel (imgPosAt resp i) i chunks ≠ ImgLoopOut.fuelOut := by
  intro fuel
  induction fuel with
  | zero => intro i chunks hf; omega
  | succ n ih =>
    intro i chunks hf
    show imgLoop resp total (n + 1) (imgPosAt resp i) i chunks ≠ _
    rw [imgLoop]
    by_cases hlt : imgPosAt resp i < total
    · rw [if_pos hlt]
      by_cases hc : (resp i).code ≠ 200
      · rw [if_pos hc]
        simp
      · rw [if_neg hc]
        by_cases hd : ((resp i).hasData && decide (0 < (resp i).iLen)) = true
        · rw [if_pos hd]
          have hc200 : (resp i).code = 200 := not_not.mp hc
          have hacc : imgAccepted (resp i) = true := by
            rw [Bool.and_eq_true] at hd
            simp [imgAccepted, hc200, hd.1, hd.2]
          have hnext : imgPosAt resp (i + 1) =
              (resp i).startPosField + (resp i).dataLen := by
            simp [imgPosAt, hacc]
          rw [← hnext]
          exact ih (i + 1) (chunks ++ [(resp i).chunk]) (by have := h i hacc; omega)
        · rw [if_neg hd]
          simp
    · rw [if_neg hlt]
      simp

theorem fileLoop_terminates_of_progress (resp : Nat → ChunkResp) (total : Nat)
    (h : ∀ i, imgAccepted (resp i) = true →
      filePosAt resp i < filePosAt resp (i + 1)) :
    ∀ (fuel i : Nat) (chunks : List (List Nat)),
      total - filePosAt resp i < fuel →
      fileLoop resp total fuel (filePosAt resp i) i chunks ≠ FileLoopOut.fuelOut := by
  intro fuel
  induction fuel with
  | zero => intro i chunks hf; omega
  | succ n ih =>
    intro i chunks hf
    show fileLoop resp total (n + 1) (filePosAt resp i) i chunks ≠ _
    rw [fileLoop]
    by_cases hlt : filePosAt resp i < total
    · rw [if_pos hlt]
      by_cases hc : (resp i).code ≠ 200
      · rw [if_pos hc]
        simp
      · rw [if_neg hc]
        by_cases hd : ((resp i).hasData && decide (0 < (resp i).iLen)) = true
        · rw [if_pos hd]
          have hc200 : (resp i).code = 200 := not_not.mp hc
          have hacc : imgAccepted (resp i) = true := by
            rw [Bool.and_eq_true] at hd
            simp [imgAccepted, hc200, hd.1, hd.2]
          have hnext : filePosAt resp (i + 1) =
              fileNextPos (resp i) (filePosAt resp i) := by
            simp [filePosAt, hacc]
          rw [← hnext]
          exact ih (i + 1) (chunks ++ [(resp i).chunk]) (by have := h i hacc; omega)
        · rw [if_neg hd]
          simp
    · rw [if_neg hlt]
      simp

/-- C9 amended: the chunked image download loop and the chunked file
download fallback loop terminate - stopping on reaching the declared
total, on a non-success code, or on an empty chunk - provided every
accepted chunk response strictly advances the offset (as a server
honoring the requested offset does, even when returning fewer bytes
than requested); each loop then finishes within totalLen + 1
iterations. Without that progress condition the loops can run
unboundedly. -/
theorem downloadLoops_terminate_with_progress
    (respI respF : Nat → ChunkResp) (totalI totalF : Nat)
    (hI : ∀ i, imgAccepted (respI i) = true →
      imgPosAt respI i < imgPosAt respI (i + 1))
    (hF : ∀ i, imgAccepted (respF i) = true →
      filePosAt respF i < filePosAt respF (i + 1)) :
    imgLoop respI totalI (totalI + 1) 0 0 [] ≠ ImgLoopOut.fuelOut ∧
    fileLoop respF totalF (totalF + 1) 0 0 [] ≠ FileLoopOut.fuelOut := by
  constructor
  · have := imgLoop_terminates_of_progress respI totalI hI (totalI + 1) 0 []
      (by simp [imgPosAt])
    simpa [imgPosAt] using this
  · have := fileLoop_terminates_of_progress respF totalF hF (totalF + 1) 0 []
      (by simp [filePosAt])
    simpa [filePosAt] using this

/-- Witness for C9 amended: a server that immediately reports no data
satisfies the progress condition vacuously and both loops finish. -/
theorem downloadLoops_terminate_with_progress_witness :
    imgLoop (fun _ => ⟨200, false, 0, [], 0, 0⟩) 5 6 0 0 [] ≠ ImgLoopOut.fuelOut ∧
    fileLoop (fun _ => ⟨200, false, 0, [], 0, 0⟩) 5 6 0 0 [] ≠ FileLoopOut.fuelOut :=
  downloadLoops_terminate_with_progress
    (fun _ => ⟨200, false, 0, [], 0, 0⟩) (fun _ => ⟨200, false, 0, [], 0, 0⟩) 5 5
    (fun i h => absurd h (by simp [imgAccepted]))
    (fun i h => absurd h (by simp [imgAccepted]))

/-- The violating trace of C10: connect and authenticate-frame events
after an explicit disconnect, while the transport has not yet finished
closing. -/
def c10Trace : List GwConnEvent :=
  [GwConnEvent.opened, GwConnEvent.disconnectCall, GwConnEvent.connectRes true]

/-- C10 counterexample: the trace open, disconnect(), late positive
connect response is transport-well-formed (the frame was delivered
before the close initiated by disconnect completed), yet it reaches a
state with authenticated true and connected false - the handshake
response handler sets authenticated without checking the connected
flag. -/
theorem auth_without_connected_counterexample :
    transportWF gwInit c10Trace = true ∧
    (runGw gwInit c10Trace).authenticated = true ∧
    (runGw gwInit c10Trace).connected = false := by decide

theorem runGw_auth_imp_connected (evs : List GwConnEvent) (s : GwFlags)
    (hi : s.authenticated = true → s.connected = true)
    (hwf : framesOnlyWhenConnected s evs = true) :
    (runGw s evs).authenticated = true → (runGw s evs).connected = true := by
  induction evs generalizing s with
  | nil => simpa [runGw] using hi
  | cons e rest ih =>
    rw [framesOnlyWhenConnected, Bool.and_eq_true] at hwf
    have hstep : (gwStep s e).authenticated = true →
        (gwStep s e).connected = true := by
      cases e with
      | opened => simp [gwStep]
      | closed => simp [gwStep]
      | connectRes ok =>
        have hc : s.connected = true := by
          rcases Bool.or_eq_true _ _ |>.mp hwf.1 with hx | hx
          · exact absurd hx (by simp [isFrameEvent])
          · exact hx
        cases ok with
        | false => simpa [gwStep] using hi
        | true => simp [gwStep, hc]
      | connectedEvent =>
        have hc : s.connected = true := by
          rcases Bool.or_eq_true _ _ |>.mp hwf.1 with hx | hx
          · exact absurd hx (by simp [isFrameEvent])
          · exact hx
        simp [gwStep, hc]
      | disconnectCall => simp [gwStep]
    have := ih (gwStep s e) hstep hwf.2
    simpa [runGw, List.foldl_cons] using this

/-- C10 amended: every event that clears the connected flag (the
transport close handler and disconnect()) also clears the
authenticated flag; and along every trace in which frames are only
processed while the connected flag is set, authenticated implies
connected in every reachable state. The unrestricted invariant fails:
the handshake handler sets authenticated without a connected check, so
a frame delivered between disconnect() and the completion of the
transport close reaches authenticated true with connected false. -/
theorem gw_auth_invariant_restricted (evs : List GwConnEvent)
    (hwf : framesOnlyWhenConnected gwInit evs = true) :
    ((runGw gwInit evs).authenticated = true →
      (runGw gwInit evs).connected = true) ∧
    (∀ s : GwFlags, (gwStep s GwConnEvent.closed).authenticated = false ∧
       (gwStep s GwConnEvent.disconnectCall).authenticated = false) :=
  ⟨runGw_auth_imp_connected evs gwInit (by simp [gwInit]) hwf,
   fun s => ⟨rfl, rfl⟩⟩

/-- Witness for C10 amended on a normal connect-then-authenticate
trace. -/
theorem gw_auth_invariant_restricted_witness :
    (runGw gwInit [GwConnEvent.opened, GwConnEvent.connectRes true]).connected = true :=
  (gw_auth_invariant_restricted [GwConnEvent.opened, GwConnEvent.connectRes true]
    (by decide)).1 (by decide)

end OpenClawWechat
